import Mathlib

/-!
Verification development for the MetalMinRepro stress-test harness
(`main.cpp`).  The host-side logic that decides pass/fail — the error
classifier `CheckError`, the telemetry decoder `Validate`, the trial loop
`RunTest`, and the command-line parsing in `parse`/`main` — is embedded
below as pure Lean functions; the GPU/runtime interactions are abstracted
as inputs (a map result delivering device memory words, a per-trial
telemetry oracle).  32-bit device words are modelled as `Nat` (all host
arithmetic on them is comparison and bit masking, which never overflows).
-/

/-! ## Hazard protocol constants (main.cpp lines 374-380) -/

def FLAG_NOT_READY : Nat := 0
def FLAG_READY : Nat := 0x40000000
def FLAG_INCLUSIVE : Nat := 0x80000000
def VALUE_MASK : Nat := 0xFFFF
def SPLIT_THREADS : Nat := 2
def ERROR_TYPE_MESSAGE : Nat := 1
def ERROR_TYPE_SHUFFLE : Nat := 2

/-! ## CheckError (main.cpp lines 382-416)

`CheckError` returns `true` exactly on error code 0.  For code 1 it prints
a diagnostic that *describes* the legal protocol shapes (computing
`val_content_for_ready_state` and `expected_full_value_for_ready_state`)
and returns `false`; for code 2 and for unknown codes it likewise prints
and returns `false`.  The diagnostic-value computations are embedded
separately so theorems can talk about them. -/

def val_content_for_ready_state (tid : Nat) : Nat :=
  (1024 >>> (tid * 16)) &&& VALUE_MASK

def expected_full_value_for_ready_state (tid : Nat) : Nat :=
  val_content_for_ready_state tid ||| FLAG_READY

def CheckError (errCode got tile_id tid : Nat) : Bool :=
  if errCode = 0 then
    true
  else if errCode = ERROR_TYPE_MESSAGE then
    false
  else if errCode = ERROR_TYPE_SHUFFLE then
    false
  else
    false

/-- The three legal observed-value shapes for a message-passing (code 1)
telemetry entry, as the protocol specification words them: the not-ready
sentinel 0, the ready shape `((1024 >>> (tid*16)) &&& 0xFFFF) ||| 0x40000000`
for thread-slot `tid`, or any value with the inclusive bit `0x80000000`
set.  This definition follows the specification's words (for comparison
against the code's `CheckError`), not the code. -/
def specLegalMessageValue (got tid : Nat) : Bool :=
  (got == FLAG_NOT_READY) ||
  (got == expected_full_value_for_ready_state tid) ||
  (got &&& FLAG_INCLUSIVE != 0)

/-- C9: a telemetry entry is classified as passing iff its error code word
is 0; for every nonzero error code the classifier returns failure, so the
observed value never influences the pass/fail decision. -/
theorem checkError_pass_iff_code_zero (errCode got tile_id tid : Nat) :
    CheckError errCode got tile_id tid = (errCode == 0) := by
  by_cases h : errCode = 0 <;> simp [CheckError, h]

/-- C1 counterexample: the observed value 0 is the not-ready sentinel — a
legal shape per the spec's protocol — yet `CheckError` with error code 1
classifies it as a hazard (returns `false`).  The host classifier never
inspects the observed value. -/
theorem checkError_code1_counterexample :
    specLegalMessageValue 0 0 = true ∧
    CheckError ERROR_TYPE_MESSAGE 0 0 0 = false := by
  constructor
  · decide
  · decide

/-- C1 (amended): for every telemetry entry with error code 1 the
classifier reports a message-passing hazard regardless of the observed
value; the legal shapes (not-ready 0, the ready shape, the inclusive bit)
appear only in the printed diagnostic — and the diagnostic's ready shape
does match the spec's formula `((1024 >> (tid*16)) & 0xFFFF) | 0x40000000`. -/
theorem checkError_code1_always_hazard :
    (∀ got tile_id tid : Nat,
      CheckError ERROR_TYPE_MESSAGE got tile_id tid = false) ∧
    (∀ tid : Nat, expected_full_value_for_ready_state tid =
      ((1024 >>> (tid * 16)) &&& 0xFFFF) ||| 0x40000000) := by
  constructor
  · intro got tile_id tid
    rfl
  · intro tid
    rfl

/-! ## ReadbackSync (main.cpp lines 331-352)

`ReadbackSync` maps the staging buffer and, on success, `memcpy`s
`readbackSizeBytes` into the host vector `readOut`; on failure it only
logs "Bad readback" and leaves `readOut` untouched.  The device-side map
outcome is modelled as `Option (Nat → Nat)`: `some data` delivers the
mapped words, `none` is a failed map.  The result pairs the host vector
after the call with whether the failure log was emitted. -/

def ReadbackSync (mapResult : Option (Nat → Nat)) (readOut : List Nat)
    (words : Nat) : List Nat × Bool :=
  match mapResult with
  | some data =>
    ((List.range readOut.length).map
      (fun i => if i < words then data i else readOut.getD i 0), false)
  | none => (readOut, true)

/-- C8: on a failed buffer map the destination host vector is returned
unchanged (no bytes are copied) and the failure is logged. -/
theorem readbackSync_map_failure_frame (readOut : List Nat) (words : Nat) :
    ReadbackSync none readOut words = (readOut, true) := rfl

/-! ## Validate (main.cpp lines 418-435)

The validation loop, per tile `tile_id` in `0..size-1` and thread slot
`tid` in `0..SPLIT_THREADS-1`, reads the word pair at
`tile_id*SPLIT_THREADS*2 + tid*2` and returns `false` at the first entry
where `CheckError` fails.  The loops are embedded as fuel recursion over
the remaining iteration count, with `&&`/early-`some` preserving the
short-circuit shape.  `w : Nat → Nat` is vector indexing on the host
telemetry vector `readOut`. -/

def entryCheck (w : Nat → Nat) (tile_id tid : Nat) : Bool :=
  CheckError (w (tile_id * SPLIT_THREADS * 2 + tid * 2))
    (w (tile_id * SPLIT_THREADS * 2 + tid * 2 + 1)) tile_id tid

def checkTids (w : Nat → Nat) (tile_id : Nat) : Nat → Nat → Bool
  | _, 0 => true
  | tid, n + 1 => entryCheck w tile_id tid && checkTids w tile_id (tid + 1) n

def checkTiles (w : Nat → Nat) : Nat → Nat → Bool
  | _, 0 => true
  | tile_id, n + 1 =>
    checkTids w tile_id 0 SPLIT_THREADS && checkTiles w (tile_id + 1) n

/-- The position (thread slot) of the first failing entry within a tile,
mirroring the inner loop's early return. -/
def firstFailTids (w : Nat → Nat) (tile_id : Nat) : Nat → Nat → Option Nat
  | _, 0 => none
  | tid, n + 1 =>
    if entryCheck w tile_id tid then firstFailTids w tile_id (tid + 1) n
    else some tid

/-- The (tile, thread slot) of the first failing entry, mirroring the
outer loop's early return; this is the pair `CheckError` prints in its
diagnostic when validation fails. -/
def firstFailTiles (w : Nat → Nat) : Nat → Nat → Option (Nat × Nat)
  | _, 0 => none
  | tile_id, n + 1 =>
    match firstFailTids w tile_id 0 SPLIT_THREADS with
    | some tid => some (tile_id, tid)
    | none => firstFailTiles w (tile_id + 1) n

def firstFailure (w : Nat → Nat) (size : Nat) : Option (Nat × Nat) :=
  firstFailTiles w 0 size

/-- `Validate`: returns `true` immediately when `size = 0`; otherwise
zero-initialises `readOut` (a `std::vector<uint32_t>` of
`size*SPLIT_THREADS*2` words), reads the telemetry back through
`ReadbackSync`, and runs the check loops. -/
def Validate (mapResult : Option (Nat → Nat)) (size : Nat) : Bool :=
  if size = 0 then true
  else
    let readOut :=
      (ReadbackSync mapResult (List.replicate (size * SPLIT_THREADS * 2) 0)
        (size * SPLIT_THREADS * 2)).1
    checkTiles (fun i => readOut.getD i 0) 0 size

/-- The number of 32-bit telemetry words `Validate` requests in its
readback: 0 when `size = 0` (it returns before `CopyAndReadbackSync`),
else `readOut.size() = size * SPLIT_THREADS * 2`. -/
def ValidateReadbackWords (size : Nat) : Nat :=
  if size = 0 then 0 else size * SPLIT_THREADS * 2

/-- C5: for test size 0, validation passes regardless of the device map
outcome / telemetry contents, and no telemetry readback is performed. -/
theorem validate_size_zero (mapResult : Option (Nat → Nat)) :
    Validate mapResult 0 = true ∧ ValidateReadbackWords 0 = 0 :=
  ⟨rfl, rfl⟩

/-- Indexing a zero-initialised vector yields 0 (in or out of bounds). -/
theorem getD_replicate_zero (n i : Nat) :
    (List.replicate n (0 : Nat)).getD i 0 = 0 := by
  induction n generalizing i with
  | zero => simp [List.getD]
  | succ m ih =>
    cases i with
    | zero => rfl
    | succ j => simpa [List.replicate_succ, List.getD] using ih j

theorem checkTids_all_zero (tile_id : Nat) :
    ∀ n tid, checkTids (fun _ => 0) tile_id tid n = true := by
  intro n
  induction n with
  | zero => intro tid; rfl
  | succ m ih =>
    intro tid
    simp [checkTids, entryCheck, CheckError, ih]

theorem checkTiles_all_zero : ∀ n tile_id,
    checkTiles (fun _ => 0) tile_id n = true := by
  intro n
  induction n with
  | zero => intro tile_id; rfl
  | succ m ih =>
    intro tile_id
    simp [checkTiles, checkTids_all_zero, ih]

/-- C10: if the buffer map fails during a trial's readback with
`size > 0`, the trial still validates as passed — the freshly
zero-initialised host vector is left all zeros by the failed map, and
all-zero telemetry decodes as a clean pass. -/
theorem validate_map_failure_passes (size : Nat) (h : 0 < size) :
    Validate none size = true := by
  unfold Validate
  rw [if_neg (Nat.pos_iff_ne_zero.mp h)]
  show checkTiles (fun i => (ReadbackSync none
      (List.replicate (size * SPLIT_THREADS * 2) 0)
      (size * SPLIT_THREADS * 2)).1.getD i 0) 0 size = true
  have hz : (fun i => (ReadbackSync none
      (List.replicate (size * SPLIT_THREADS * 2) 0)
      (size * SPLIT_THREADS * 2)).1.getD i 0) = (fun _ => (0 : Nat)) := by
    funext i
    simp [ReadbackSync, getD_replicate_zero]
  rw [hz]
  exact checkTiles_all_zero size 0

/-- Witness for C10 at `size = 1`. -/
theorem validate_map_failure_passes_witness :
    0 < 1 ∧ Validate none 1 = true :=
  ⟨by decide, validate_map_failure_passes 1 (by decide)⟩

/-! ## Bridging `Validate` to the loop over the raw telemetry words -/

theorem SPLIT_THREADS_eq : SPLIT_THREADS = 2 := rfl

theorem getD_range_map (f : Nat → Nat) (n i : Nat) (h : i < n) :
    ((List.range n).map f).getD i 0 = f i := by
  simp [List.getD_eq_getElem?_getD, List.getElem?_map, List.getElem?_range, h]

/-- The entry at `(tile_id, tid)` reads the words at flat indices
`tile_id*4 + tid*2` and `tile_id*4 + tid*2 + 1`. -/
theorem entryCheck_eq (w : Nat → Nat) (t k : Nat) :
    entryCheck w t k =
      CheckError (w (t * 4 + k * 2)) (w (t * 4 + k * 2 + 1)) t k := by
  unfold entryCheck
  have e : t * SPLIT_THREADS * 2 + k * 2 = t * 4 + k * 2 := by
    simp only [SPLIT_THREADS_eq]
    omega
  rw [e]

theorem entryCheck_congr {w1 w2 : Nat → Nat} (t k : Nat)
    (h0 : w1 (t * 4 + k * 2) = w2 (t * 4 + k * 2))
    (h1 : w1 (t * 4 + k * 2 + 1) = w2 (t * 4 + k * 2 + 1)) :
    entryCheck w1 t k = entryCheck w2 t k := by
  rw [entryCheck_eq, entryCheck_eq, h0, h1]

theorem checkTids_two (w : Nat → Nat) (t : Nat) :
    checkTids w t 0 SPLIT_THREADS =
      (entryCheck w t 0 && entryCheck w t 1) := by
  show checkTids w t 0 2 = _
  simp [checkTids]

theorem firstFailTids_two (w : Nat → Nat) (t : Nat) :
    firstFailTids w t 0 SPLIT_THREADS =
      (if entryCheck w t 0 then
        (if entryCheck w t 1 then none else some 1) else some 0) := by
  show firstFailTids w t 0 2 = _
  simp [firstFailTids]

theorem checkTids_two_true_iff (w : Nat → Nat) (t : Nat) :
    checkTids w t 0 SPLIT_THREADS = true ↔
      ∀ k, k < 2 → entryCheck w t k = true := by
  rw [checkTids_two, Bool.and_eq_true]
  constructor
  · intro h k hk
    have h2 : k = 0 ∨ k = 1 := by omega
    rcases h2 with h2 | h2 <;> subst h2
    · exact h.1
    · exact h.2
  · intro h
    exact ⟨h 0 (by decide), h 1 (by decide)⟩

theorem checkTiles_true_iff (w : Nat → Nat) : ∀ n t,
    checkTiles w t n = true ↔
      ∀ j, j < n → checkTids w (t + j) 0 SPLIT_THREADS = true := by
  intro n
  induction n with
  | zero =>
    intro t
    simp [checkTiles]
  | succ m ih =>
    intro t
    rw [show checkTiles w t (m + 1) =
        (checkTids w t 0 SPLIT_THREADS && checkTiles w (t + 1) m) from rfl,
      Bool.and_eq_true, ih]
    constructor
    · rintro ⟨h0, hrest⟩ j hj
      cases j with
      | zero => simpa using h0
      | succ j' =>
        have hgoal := hrest j' (by omega)
        have e : t + 1 + j' = t + (j' + 1) := by omega
        rwa [e] at hgoal
    · intro hall
      refine ⟨by simpa using hall 0 (by omega), ?_⟩
      intro j hj
      have hgoal := hall (j + 1) (by omega)
      have e : t + (j + 1) = t + 1 + j := by omega
      rwa [e] at hgoal

theorem checkTiles_congr {w1 w2 : Nat → Nat} : ∀ n t,
    (∀ i, i < (t + n) * 4 → w1 i = w2 i) →
    checkTiles w1 t n = checkTiles w2 t n := by
  intro n
  induction n with
  | zero =>
    intro t _
    rfl
  | succ m ih =>
    intro t h
    rw [show checkTiles w1 t (m + 1) =
        (checkTids w1 t 0 SPLIT_THREADS && checkTiles w1 (t + 1) m) from rfl,
      show checkTiles w2 t (m + 1) =
        (checkTids w2 t 0 SPLIT_THREADS && checkTiles w2 (t + 1) m) from rfl]
    have htids : checkTids w1 t 0 SPLIT_THREADS =
        checkTids w2 t 0 SPLIT_THREADS := by
      rw [checkTids_two, checkTids_two]
      have e0 := @entryCheck_congr w1 w2 t 0
        (h _ (by omega)) (h _ (by omega))
      have e1 := @entryCheck_congr w1 w2 t 1
        (h _ (by omega)) (h _ (by omega))
      rw [e0, e1]
    rw [htids, ih (t + 1) (fun i hi => h i (by omega))]

/-- For positive size, validating a successful readback of device words
`w` is the check loop run on `w` itself. -/
theorem validate_some_eq (w : Nat → Nat) (size : Nat) (h : size ≠ 0) :
    Validate (some w) size = checkTiles w 0 size := by
  unfold Validate
  rw [if_neg h]
  show checkTiles (fun i => (ReadbackSync (some w)
      (List.replicate (size * SPLIT_THREADS * 2) 0)
      (size * SPLIT_THREADS * 2)).1.getD i 0) 0 size = _
  apply checkTiles_congr
  intro i hi
  have hi' : i < size * SPLIT_THREADS * 2 := by
    simp only [SPLIT_THREADS_eq]
    simp only [SPLIT_THREADS_eq, Nat.zero_add] at hi
    omega
  have hrb : (ReadbackSync (some w)
      (List.replicate (size * SPLIT_THREADS * 2) 0)
      (size * SPLIT_THREADS * 2)).1 =
      (List.range (size * SPLIT_THREADS * 2)).map
        (fun j => if j < size * SPLIT_THREADS * 2 then w j
          else (List.replicate (size * SPLIT_THREADS * 2) (0 : Nat)).getD j 0) := by
    simp [ReadbackSync]
  rw [hrb, getD_range_map _ _ _ hi']
  simp [hi']

/-- C6: for size `S > 0`, the validator reads back exactly `S * 2 * 2`
32-bit telemetry words, and passes iff for every tile `t < S` and thread
slot `k < 2` the entry with error code at word index `t*4 + k*2` and
observed value at `t*4 + k*2 + 1` passes `CheckError`. -/
theorem validate_readback_decode (w : Nat → Nat) (size : Nat) (h : 0 < size) :
    ValidateReadbackWords size = size * 2 * 2 ∧
    (Validate (some w) size = true ↔
      ∀ t, t < size → ∀ k, k < 2 →
        CheckError (w (t * 4 + k * 2)) (w (t * 4 + k * 2 + 1)) t k = true) := by
  have hne : size ≠ 0 := Nat.pos_iff_ne_zero.mp h
  constructor
  · show (if size = 0 then 0 else size * SPLIT_THREADS * 2) = size * 2 * 2
    rw [if_neg hne]
    rfl
  · rw [validate_some_eq w size hne, checkTiles_true_iff]
    constructor
    · intro hall t ht k hk
      have h2 := (checkTids_two_true_iff w (0 + t)).mp (hall t ht) k hk
      rw [Nat.zero_add, entryCheck_eq] at h2
      exact h2
    · intro hall j hj
      rw [Nat.zero_add, checkTids_two_true_iff]
      intro k hk
      rw [entryCheck_eq]
      exact hall j hj k hk

/-- Witness for C6 at `size = 1` on all-zero telemetry. -/
theorem validate_readback_decode_witness :
    0 < 1 ∧
    (ValidateReadbackWords 1 = 1 * 2 * 2 ∧
      (Validate (some (fun _ => (0 : Nat))) 1 = true ↔
        ∀ t, t < 1 → ∀ k, k < 2 →
          CheckError ((fun _ => (0 : Nat)) (t * 4 + k * 2))
            ((fun _ => (0 : Nat)) (t * 4 + k * 2 + 1)) t k = true)) :=
  ⟨by decide, validate_readback_decode (fun _ => (0 : Nat)) 1 (by decide)⟩

/-- C7: decoding is deterministic — two runs of the validator on the same
telemetry words (and the same test size) produce identical pass/fail
classification. -/
theorem validate_deterministic (w1 w2 : Nat → Nat) (size : Nat)
    (h : ∀ i, w1 i = w2 i) :
    Validate (some w1) size = Validate (some w2) size := by
  have e : w1 = w2 := funext h
  rw [e]

/-- Witness for C7: the same concrete telemetry decoded twice agrees. -/
theorem validate_deterministic_witness :
    Validate (some (fun i => i % 3)) 2 = Validate (some (fun i => i % 3)) 2 :=
  validate_deterministic (fun i => i % 3) (fun i => i % 3) 2 (fun _ => rfl)

/-! ## First-failure characterisation of the validation loops (for C3) -/

theorem firstFailTids_none_iff (w : Nat → Nat) (t : Nat) :
    firstFailTids w t 0 SPLIT_THREADS = none ↔
      checkTids w t 0 SPLIT_THREADS = true := by
  rw [firstFailTids_two, checkTids_two]
  cases h0 : entryCheck w t 0 <;> cases h1 : entryCheck w t 1 <;> simp

theorem firstFailTids_some_cases (w : Nat → Nat) (t k : Nat)
    (h : firstFailTids w t 0 SPLIT_THREADS = some k) :
    (k = 0 ∧ entryCheck w t 0 = false) ∨
    (k = 1 ∧ entryCheck w t 0 = true ∧ entryCheck w t 1 = false) := by
  rw [firstFailTids_two] at h
  cases h0 : entryCheck w t 0 <;> cases h1 : entryCheck w t 1 <;>
    rw [h0, h1] at h <;> simp at h <;> simp [h0, h1, h.symm]

theorem firstFailTids_eq_some_zero (w : Nat → Nat) (t : Nat)
    (h : entryCheck w t 0 = false) :
    firstFailTids w t 0 SPLIT_THREADS = some 0 := by
  rw [firstFailTids_two]
  simp [h]

theorem firstFailTids_eq_some_one (w : Nat → Nat) (t : Nat)
    (h0 : entryCheck w t 0 = true) (h1 : entryCheck w t 1 = false) :
    firstFailTids w t 0 SPLIT_THREADS = some 1 := by
  rw [firstFailTids_two]
  simp [h0, h1]

theorem firstFailTiles_succ (w : Nat → Nat) (t n : Nat) :
    firstFailTiles w t (n + 1) =
      (match firstFailTids w t 0 SPLIT_THREADS with
        | some tid => some (t, tid)
        | none => firstFailTiles w (t + 1) n) := rfl

theorem firstFailTiles_none_iff (w : Nat → Nat) : ∀ n t,
    firstFailTiles w t n = none ↔ checkTiles w t n = true := by
  intro n
  induction n with
  | zero =>
    intro t
    simp [firstFailTiles, checkTiles]
  | succ m ih =>
    intro t
    rw [firstFailTiles_succ,
      show checkTiles w t (m + 1) =
        (checkTids w t 0 SPLIT_THREADS && checkTiles w (t + 1) m) from rfl]
    cases hft : firstFailTids w t 0 SPLIT_THREADS with
    | some k =>
      have hck : checkTids w t 0 SPLIT_THREADS = false := by
        cases hc : checkTids w t 0 SPLIT_THREADS
        · rfl
        · have := (firstFailTids_none_iff w t).mpr hc
          rw [this] at hft
          exact Option.noConfusion hft
      simp [hck]
    | none =>
      have hck := (firstFailTids_none_iff w t).mp hft
      simp [hck, ih]

theorem firstFailTiles_some_iff (w : Nat → Nat) : ∀ n t t0 k0,
    firstFailTiles w t n = some (t0, k0) ↔
      (t ≤ t0 ∧ t0 < t + n ∧
       (∀ j, t ≤ j → j < t0 → firstFailTids w j 0 SPLIT_THREADS = none) ∧
       firstFailTids w t0 0 SPLIT_THREADS = some k0) := by
  intro n
  induction n with
  | zero =>
    intro t t0 k0
    simp only [firstFailTiles]
    constructor
    · intro h
      exact Option.noConfusion h
    · rintro ⟨h1, h2, -, -⟩
      omega
  | succ m ih =>
    intro t t0 k0
    rw [firstFailTiles_succ]
    cases hft : firstFailTids w t 0 SPLIT_THREADS with
    | some k =>
      simp only []
      constructor
      · intro h
        have he : t = t0 ∧ k = k0 := by
          have := Option.some.inj h
          exact ⟨congrArg Prod.fst this, congrArg Prod.snd this⟩
        obtain ⟨he1, he2⟩ := he
        subst he1
        subst he2
        exact ⟨le_rfl, by omega, fun j hj1 hj2 => by omega, hft⟩
      · rintro ⟨h1, h2, h3, h4⟩
        by_cases ht0 : t0 = t
        · subst ht0
          rw [hft] at h4
          rw [Option.some.inj h4]
        · have hlt : t < t0 := lt_of_le_of_ne h1 (Ne.symm ht0)
          have := h3 t le_rfl hlt
          rw [hft] at this
          exact Option.noConfusion this
    | none =>
      simp only []
      rw [ih]
      constructor
      · rintro ⟨h1, h2, h3, h4⟩
        refine ⟨by omega, by omega, ?_, h4⟩
        intro j hj1 hj2
        by_cases hjt : j = t
        · subst hjt
          exact hft
        · exact h3 j (by omega) hj2
      · rintro ⟨h1, h2, h3, h4⟩
        have ht0 : t0 ≠ t := by
          intro he
          subst he
          rw [hft] at h4
          exact Option.noConfusion h4
        exact ⟨by omega, by omega, fun j hj1 hj2 => h3 j (by omega) hj2, h4⟩

/-- C3: whenever the telemetry contains at least one failing entry,
validation fails, the failure is attributed (via `firstFailure`, the pair
the diagnostic names) to the lexicographically first failing
(tile, thread-slot) pair in increasing tile order then thread-slot order,
and neither the verdict nor the attribution depends on any word after
that pair's two telemetry words. -/
theorem validate_first_failure (w : Nat → Nat) (size t k : Nat)
    (ht : t < size) (hk : k < 2)
    (hfail : CheckError (w (t * 4 + k * 2)) (w (t * 4 + k * 2 + 1)) t k = false) :
    Validate (some w) size = false ∧
    ∃ t0 k0 : Nat,
      firstFailure w size = some (t0, k0) ∧
      t0 < size ∧ k0 < 2 ∧
      CheckError (w (t0 * 4 + k0 * 2)) (w (t0 * 4 + k0 * 2 + 1)) t0 k0 = false ∧
      (∀ t' k', t' < size → k' < 2 →
        CheckError (w (t' * 4 + k' * 2)) (w (t' * 4 + k' * 2 + 1)) t' k' = false →
        t0 * 4 + k0 * 2 ≤ t' * 4 + k' * 2) ∧
      (∀ w' : Nat → Nat,
        (∀ i, i ≤ t0 * 4 + k0 * 2 + 1 → w' i = w i) →
        Validate (some w') size = false ∧ firstFailure w' size = some (t0, k0)) := by
  have hne : size ≠ 0 := by omega
  have hfail' : entryCheck w t k = false := by
    rw [entryCheck_eq]
    exact hfail
  have hct : checkTiles w 0 size = false := by
    cases hc : checkTiles w 0 size
    · rfl
    · exfalso
      have h1 := (checkTiles_true_iff w size 0).mp hc t ht
      rw [Nat.zero_add] at h1
      have h2 := (checkTids_two_true_iff w t).mp h1 k hk
      rw [h2] at hfail'
      exact Bool.noConfusion hfail'
  have hval : Validate (some w) size = false := by
    rw [validate_some_eq w size hne]
    exact hct
  obtain ⟨⟨t0, k0⟩, hp⟩ : ∃ p, firstFailTiles w 0 size = some p := by
    cases hf : firstFailTiles w 0 size with
    | none =>
      exfalso
      have := (firstFailTiles_none_iff w size 0).mp hf
      rw [this] at hct
      exact Bool.noConfusion hct
    | some p => exact ⟨p, rfl⟩
  obtain ⟨-, ht0, hbefore, htids⟩ := (firstFailTiles_some_iff w size 0 t0 k0).mp hp
  have ht0' : t0 < size := by omega
  have hcases := firstFailTids_some_cases w t0 k0 htids
  have hk0 : k0 < 2 := by
    rcases hcases with ⟨h, -⟩ | ⟨h, -⟩ <;> omega
  have hfailp : entryCheck w t0 k0 = false := by
    rcases hcases with ⟨h, hf⟩ | ⟨h, -, hf⟩ <;> subst h <;> exact hf
  have hbefore' : ∀ j, j < t0 → ∀ m, m < 2 → entryCheck w j m = true := by
    intro j hj m hm
    exact (checkTids_two_true_iff w j).mp
      ((firstFailTids_none_iff w j).mp (hbefore j (Nat.zero_le j) hj)) m hm
  have hwithin : ∀ m, m < k0 → entryCheck w t0 m = true := by
    intro m hm
    rcases hcases with ⟨hk0e, -⟩ | ⟨hk0e, he0, -⟩
    · omega
    · have hm0 : m = 0 := by omega
      subst hm0
      exact he0
  refine ⟨hval, t0, k0, hp, ht0', hk0, ?_, ?_, ?_⟩
  · rw [← entryCheck_eq]
    exact hfailp
  · intro t' k' ht' hk' hfail2
    have hfail2' : entryCheck w t' k' = false := by
      rw [entryCheck_eq]
      exact hfail2
    by_contra hlt
    push_neg at hlt
    have hcase : t' < t0 ∨ (t' = t0 ∧ k' < k0) := by omega
    rcases hcase with hc | ⟨he, hc⟩
    · have := hbefore' t' hc k' hk'
      rw [this] at hfail2'
      exact Bool.noConfusion hfail2'
    · subst he
      have := hwithin k' hc
      rw [this] at hfail2'
      exact Bool.noConfusion hfail2'
  · intro w' hagree
    have hidx : ∀ j m, j < t0 → m < 2 → entryCheck w' j m = entryCheck w j m := by
      intro j m hj hm
      exact entryCheck_congr j m (hagree _ (by omega)) (hagree _ (by omega))
    have hidx0 : ∀ m, m ≤ k0 → entryCheck w' t0 m = entryCheck w t0 m := by
      intro m hm
      exact entryCheck_congr t0 m (hagree _ (by omega)) (hagree _ (by omega))
    have htids' : firstFailTids w' t0 0 SPLIT_THREADS = some k0 := by
      rcases hcases with ⟨hk0e, hf0⟩ | ⟨hk0e, he0, hf1⟩
      · subst hk0e
        apply firstFailTids_eq_some_zero
        rw [hidx0 0 le_rfl]
        exact hf0
      · subst hk0e
        apply firstFailTids_eq_some_one
        · rw [hidx0 0 (by omega)]
          exact he0
        · rw [hidx0 1 le_rfl]
          exact hf1
    have hbefore'' : ∀ j, 0 ≤ j → j < t0 →
        firstFailTids w' j 0 SPLIT_THREADS = none := by
      intro j _ hj
      rw [firstFailTids_none_iff, checkTids_two_true_iff]
      intro m hm
      rw [hidx j m hj hm]
      exact hbefore' j hj m hm
    have hp' : firstFailTiles w' 0 size = some (t0, k0) :=
      (firstFailTiles_some_iff w' size 0 t0 k0).mpr
        ⟨Nat.zero_le _, by omega, hbefore'', htids'⟩
    have hct' : checkTiles w' 0 size = false := by
      cases hc : checkTiles w' 0 size
      · rfl
      · exfalso
        have := (firstFailTiles_none_iff w' size 0).mpr hc
        rw [this] at hp'
        exact Option.noConfusion hp'
    refine ⟨?_, hp'⟩
    rw [validate_some_eq w' size hne]
    exact hct'

/-- Witness for C3: telemetry whose word 0 (tile 0, slot 0 error code) is
1 fails validation at size 1, with all hypotheses checked concretely. -/
theorem validate_first_failure_witness :
    (0 < 1 ∧ 0 < 2 ∧
      CheckError ((fun i => if i = 0 then 1 else 0) (0 * 4 + 0 * 2))
        ((fun i => if i = 0 then 1 else 0) (0 * 4 + 0 * 2 + 1)) 0 0 = false) ∧
    Validate (some (fun i => if i = 0 then 1 else 0)) 1 = false :=
  ⟨⟨by decide, by decide, by decide⟩,
    (validate_first_failure (fun i => if i = 0 then 1 else 0) 1 0 0
      (by decide) (by decide) (by decide)).1⟩

/-! ## RunTest (main.cpp lines 453-473)

Per trial: encode init+stress dispatches, submit, wait, then
`testsPassed += Validate(...) ? 1 : 0`.  The loop body's device effects
are summarised by the per-trial map outcome `tel i` that trial `i`'s
readback sees.  After the loop the summary `testsPassed / batchSize` is
printed. -/

def runTrials (size : Nat) (tel : Nat → Option (Nat → Nat)) :
    Nat → Nat → Nat
  | _, 0 => 0
  | i, n + 1 =>
    (if Validate (tel i) size then 1 else 0) + runTrials size tel (i + 1) n

/-- `RunTest`'s printed summary: `(testsPassed, batchSize)`. -/
def RunTest (size batchSize : Nat) (tel : Nat → Option (Nat → Nat)) :
    Nat × Nat :=
  (runTrials size tel 0 batchSize, batchSize)

theorem runTrials_eq_sum (size : Nat) (tel : Nat → Option (Nat → Nat)) :
    ∀ n i, runTrials size tel i n =
      ∑ j in Finset.range n, (if Validate (tel (i + j)) size then 1 else 0) := by
  intro n
  induction n with
  | zero =>
    intro i
    simp [runTrials]
  | succ m ih =>
    intro i
    rw [show runTrials size tel i (m + 1) =
        ((if Validate (tel i) size then 1 else 0) +
          runTrials size tel (i + 1) m) from rfl,
      ih, Finset.sum_range_succ']
    have e : ∀ j, i + 1 + j = i + (j + 1) := by omega
    simp only [e, Nat.add_zero]
    omega

theorem runTrials_le (size : Nat) (tel : Nat → Option (Nat → Nat)) :
    ∀ n i, runTrials size tel i n ≤ n := by
  intro n
  induction n with
  | zero =>
    intro i
    exact Nat.le_refl 0
  | succ m ih =>
    intro i
    have := ih (i + 1)
    rw [show runTrials size tel i (m + 1) =
        ((if Validate (tel i) size then 1 else 0) +
          runTrials size tel (i + 1) m) from rfl]
    split <;> omega

/-- C2: for valid size and trial count, the batch runs every requested
trial (each trial `i < batchSize` contributes exactly its own validation
outcome to the pass count, independent of earlier failures), terminates,
and the printed summary is `passed / total` with `passed ≤ total` and
`total` equal to the requested count. -/
theorem runTest_batch (size batchSize : Nat) (tel : Nat → Option (Nat → Nat))
    (hsize : size < 65536) (hbatch : batchSize < 1024) :
    (RunTest size batchSize tel).2 = batchSize ∧
    (RunTest size batchSize tel).1 ≤ (RunTest size batchSize tel).2 ∧
    (RunTest size batchSize tel).1 =
      ∑ i in Finset.range batchSize,
        (if Validate (tel i) size then 1 else 0) := by
  refine ⟨rfl, runTrials_le size tel batchSize 0, ?_⟩
  have := runTrials_eq_sum size tel batchSize 0
  simpa using this

/-- Witness for C2 at `size = 0`, `batchSize = 2`, all maps failing. -/
theorem runTest_batch_witness :
    (0 < 65536 ∧ 2 < 1024) ∧
    ((RunTest 0 2 (fun _ => none)).2 = 2 ∧
      (RunTest 0 2 (fun _ => none)).1 ≤ (RunTest 0 2 (fun _ => none)).2 ∧
      (RunTest 0 2 (fun _ => none)).1 =
        ∑ i in Finset.range 2,
          (if Validate ((fun _ => (none : Option (Nat → Nat))) i) 0
            then 1 else 0)) :=
  ⟨⟨by decide, by decide⟩,
    runTest_batch 0 2 (fun _ => none) (by decide) (by decide)⟩

/-! ## Command-line parsing: parse and main (main.cpp lines 475-514)

`parse` wraps `strtoul(arg, &endptr, 10)` and rejects on `ERANGE`, no
conversion, trailing characters, or a value above the given bound.
`strtoul` is embedded for base 10 on 64-bit `unsigned long`: skip C
whitespace, an optional sign (`-` wraps the value modulo 2^64), then a
maximal digit run; overflow clamps to `ULONG_MAX` and raises the range
error. -/

def ULONG_MAX : Nat := 2 ^ 64 - 1

def isSpaceC (c : Char) : Bool :=
  c == ' ' || c == '\t' || c == '\n' || c == '\x0b' || c == '\x0c' || c == '\r'

def digitsToNat (ds : List Char) : Nat :=
  ds.foldl (fun a c => a * 10 + (c.toNat - 48)) 0

structure StrtoulOut where
  value : Nat
  rest : List Char
  erange : Bool

/-- `none` when no conversion was performed (`endptr == arg_str`). -/
def strtoul10 (s : List Char) : Option StrtoulOut :=
  let s1 := s.dropWhile isSpaceC
  let sign : Bool × List Char :=
    match s1 with
    | c :: r => if c == '-' then (true, r)
                else if c == '+' then (false, r) else (false, s1)
    | [] => (false, [])
  let ds := sign.2.takeWhile Char.isDigit
  let rest := sign.2.dropWhile Char.isDigit
  if ds.isEmpty then none
  else
    let raw := digitsToNat ds
    let er := decide (ULONG_MAX < raw)
    let clamped := if ULONG_MAX < raw then ULONG_MAX else raw
    let v := if sign.1 then
        (ULONG_MAX + 1 - clamped % (ULONG_MAX + 1)) % (ULONG_MAX + 1)
      else clamped
    some ⟨v, rest, er⟩

def parse (s : List Char) (exclMax : Nat) : Option Nat :=
  match strtoul10 s with
  | none => none
  | some r =>
    if r.erange || !r.rest.isEmpty || decide (exclMax < r.value) then none
    else some r.value

def EXIT_SUCCESS : Nat := 0
def EXIT_FAILURE : Nat := 1

structure MainOutcome where
  exitCode : Nat
  negotiated : Bool
  usageErrToStderr : Bool
  summary : Option (Nat × Nat)

/-- `main`: wrong argc or a failed `parse` prints to stderr and returns
`EXIT_FAILURE` before `GetGPUContext` (device negotiation); otherwise the
GPU setup runs, `RunTest` produces the summary, and `main` returns
`EXIT_SUCCESS` unconditionally. -/
def mainModel (argv : List (List Char))
    (tel : Nat → Option (Nat → Nat)) : MainOutcome :=
  if argv.length ≠ 3 then ⟨EXIT_FAILURE, false, true, none⟩
  else
    match parse (argv.getD 1 []) 65535 with
    | none => ⟨EXIT_FAILURE, false, true, none⟩
    | some size =>
      match parse (argv.getD 2 []) 1023 with
      | none => ⟨EXIT_FAILURE, false, true, none⟩
      | some batchSize =>
        ⟨EXIT_SUCCESS, true, false, some (RunTest size batchSize tel)⟩

/-- C4: wrong argument count or an argument `parse` rejects (unparseable,
`ERANGE`, trailing junk, test size above 65535, trial count above 1023)
makes the program report to stderr and exit with `EXIT_FAILURE` without
attempting device negotiation; any parsed value above the bound is
rejected by `parse`; and every accepted command line exits
`EXIT_SUCCESS` with a trial summary, however many trials failed. -/
theorem main_argument_validation (argv : List (List Char))
    (tel : Nat → Option (Nat → Nat)) :
    ((argv.length ≠ 3 ∨ parse (argv.getD 1 []) 65535 = none ∨
        parse (argv.getD 2 []) 1023 = none) →
      (mainModel argv tel).exitCode = EXIT_FAILURE ∧
      (mainModel argv tel).negotiated = false ∧
      (mainModel argv tel).usageErrToStderr = true) ∧
    (∀ s r, strtoul10 s = some r → 65535 < r.value →
      parse s 65535 = none) ∧
    (∀ s r, strtoul10 s = some r → 1023 < r.value →
      parse s 1023 = none) ∧
    (argv.length = 3 →
      ∀ size batchSize, parse (argv.getD 1 []) 65535 = some size →
        parse (argv.getD 2 []) 1023 = some batchSize →
        (mainModel argv tel).exitCode = EXIT_SUCCESS ∧
        (mainModel argv tel).negotiated = true ∧
        (mainModel argv tel).summary = some (RunTest size batchSize tel)) := by
  refine ⟨?_, ?_, ?_, ?_⟩
  · intro h
    by_cases h3 : argv.length = 3
    · rcases h with h | h | h
      · exact absurd h3 h
      · unfold mainModel
        rw [if_neg (not_not_intro h3), h]
        exact ⟨rfl, rfl, rfl⟩
      · unfold mainModel
        rw [if_neg (not_not_intro h3)]
        cases hp1 : parse (argv.getD 1 []) 65535 with
        | none => exact ⟨rfl, rfl, rfl⟩
        | some v =>
          rw [h]
          exact ⟨rfl, rfl, rfl⟩
    · unfold mainModel
      rw [if_pos h3]
      exact ⟨rfl, rfl, rfl⟩
  · intro s r hs hv
    unfold parse
    rw [hs]
    have hd : decide (65535 < r.value) = true := decide_eq_true hv
    simp [hd]
  · intro s r hs hv
    unfold parse
    rw [hs]
    have hd : decide (1023 < r.value) = true := decide_eq_true hv
    simp [hd]
  · intro h3 size batchSize hp1 hp2
    unfold mainModel
    rw [if_neg (not_not_intro h3), hp1, hp2]
    exact ⟨rfl, rfl, rfl⟩

/-- Witness for C4: `size = 65536` is rejected before device
negotiation; the well-formed line `prog 4 2` exits `EXIT_SUCCESS`. -/
theorem main_argument_validation_witness :
    ((mainModel [['p'], ['6', '5', '5', '3', '6'], ['4']]
        (fun _ => none)).exitCode = EXIT_FAILURE ∧
      (mainModel [['p'], ['6', '5', '5', '3', '6'], ['4']]
        (fun _ => none)).negotiated = false ∧
      (mainModel [['p'], ['6', '5', '5', '3', '6'], ['4']]
        (fun _ => none)).usageErrToStderr = true) ∧
    (mainModel [['p'], ['4'], ['2']] (fun _ => none)).exitCode =
      EXIT_SUCCESS :=
  ⟨(main_argument_validation [['p'], ['6', '5', '5', '3', '6'], ['4']]
      (fun _ => none)).1 (Or.inr (Or.inl (by decide))),
    ((main_argument_validation [['p'], ['4'], ['2']] (fun _ => none)).2.2.2
      (by decide) 4 2 (by decide) (by decide)).1⟩
